import Mathlib

/-!
# Shallow embedding of the posix-socket address layer

This file embeds the socket-address data model and operations of the
`posix-socket` Rust crate (files `src/address/unix.rs`, `src/address/inet4.rs`,
`src/address/inet6.rs`, `src/address/mod.rs` and the `recv_msg` /
`recv_msg_from` logic of `src/socket.rs`) and proves properties of the
resulting definitions.

Conventions of the embedding:
* Machine integers become `Nat`; byte buffers become `List Nat` of bytes.
* Fallible Rust computations (`std::io::Result`) become `RustOutcome`, which
  also has an explicit `panicked` constructor so that a panic and a
  recoverable error are distinguishable values.
* A `usize` subtraction that can underflow (a panic in the source) is
  modelled by an `Option`, `none` being the panic.
* Platform constants are those of Linux (the crate's primary target):
  `AF_LOCAL = 1`, `AF_INET = 2`, `AF_INET6 = 10`, `MSG_CTRUNC = 8`,
  `sizeof(sockaddr_un) = 110` with `offsetof(sockaddr_un, sun_path) = 2`,
  `sizeof(sockaddr_in) = 16`, `sizeof(sockaddr_in6) = 28`,
  `sizeof(sockaddr_storage) = 128`, and a little-endian host for the
  `to_be` / `from_be` byte swaps.
-/

namespace PosixSocket

/-- `libc::AF_LOCAL` on Linux. -/
def afLocal : Nat := 1

/-- `libc::AF_INET` on Linux. -/
def afInet : Nat := 2

/-- `libc::AF_INET6` on Linux. -/
def afInet6 : Nat := 10

/-- `libc::MSG_CTRUNC` on Linux. -/
def msgCtrunc : Nat := 8

/-- The `std::io::ErrorKind` values used by the crate, plus `osError` for
errors built from `std::io::Error::last_os_error()` after a failed syscall. -/
inductive ErrorKind where
  | invalidInput
  | invalidData
  | osError
  deriving DecidableEq

/-- Outcome of a fallible Rust computation: a success value, a recoverable
`std::io::Error` of a given kind, or a panic. -/
inductive RustOutcome (α : Type) where
  | ok (value : α)
  | err (kind : ErrorKind)
  | panicked
  deriving DecidableEq

/-- `Result::is_ok`. -/
def RustOutcome.isOk {α : Type} : RustOutcome α → Bool
  | .ok _ => true
  | _ => false

/-- `Result::map` (panics propagate). -/
def RustOutcome.map {α β : Type} (f : α → β) : RustOutcome α → RustOutcome β
  | .ok a => .ok (f a)
  | .err k => .err k
  | .panicked => .panicked

/-- `ptr::copy(src.as_ptr(), dst.as_mut_ptr(), src.len())`: overwrite the
first `src.length` bytes of `dst` with `src`. -/
def copyBytesInto (dst src : List Nat) : List Nat :=
  src ++ dst.drop src.length

/-! ## `src/address/unix.rs` -/

/-- The byte content of `libc::sockaddr_un` (Linux): a 16-bit `sun_family`
tag followed by the 108-byte `sun_path` array, kept as a byte list. -/
structure sockaddr_un where
  sun_family : Nat
  sun_path : List Nat
  deriving DecidableEq

/-- `std::mem::zeroed()` for the `sun_path` array. -/
def zeroSunPath : List Nat := List.replicate 108 0

/-- `UnixSocketAddress`: a `sockaddr_un` plus the logical length `len`. -/
structure UnixSocketAddress where
  inner : sockaddr_un
  len : Nat
  deriving DecidableEq

namespace UnixSocketAddress

/-- `UnixSocketAddress::static_family()` = `libc::AF_LOCAL`. -/
def static_family : Nat := afLocal

/-- `UnixSocketAddress::max_len()` = `size_of::<libc::sockaddr_un>()` = 110. -/
def max_len : Nat := 110

/-- `UnixSocketAddress::path_offset()`:
`offsetof(libc::sockaddr_un, sun_path)` = 2 on Linux. -/
def path_offset (_a : UnixSocketAddress) : Nat := 2

/-- `UnixSocketAddress::new(path)`. The source first rejects a path with
`path.len() >= max_len - path_offset - 1`, then returns the zeroed address
(with `len = 0`) for an empty path, else copies the path bytes into
`sun_path` and sets `len = path_offset + path.len() + 1`. -/
def new (path : List Nat) : RustOutcome UnixSocketAddress :=
  let output : UnixSocketAddress := ⟨⟨static_family, zeroSunPath⟩, 0⟩
  if max_len - path_offset output - 1 ≤ path.length then
    .err .invalidInput
  else if path.length = 0 then
    .ok output
  else
    .ok ⟨⟨static_family, copyBytesInto zeroSunPath path⟩,
         path_offset output + path.length + 1⟩

/-- `UnixSocketAddress::new_unnamed()`: zeroed address with
`len = path_offset`. -/
def new_unnamed : UnixSocketAddress :=
  let address : UnixSocketAddress := ⟨⟨static_family, zeroSunPath⟩, 0⟩
  { address with len := address.path_offset }

/-- `UnixSocketAddress::path_len()` = `self.len() as usize - self.path_offset()`.
The `usize` subtraction panics when `len < path_offset`; the panic is
modelled as `none`. -/
def path_len (a : UnixSocketAddress) : Option Nat :=
  if a.len < a.path_offset then none else some (a.len - a.path_offset)

/-- `UnixSocketAddress::as_path()`. The outer `Option` is the panic channel
(`none` = a panic inside the call, from `path_len` underflow or an
out-of-bounds slice `sun_path[..path_len - 1]`); the inner `Option` is the
source's return value. -/
def as_path (a : UnixSocketAddress) : Option (Option (List Nat)) :=
  match a.path_len with
  | none => none
  | some pl =>
    if pl = 0 then some none
    else if a.inner.sun_path.headD 0 = 0 then some none
    else if pl - 1 ≤ a.inner.sun_path.length then
      some (some (a.inner.sun_path.take (pl - 1)))
    else none

/-- `UnixSocketAddress::is_unnamed()` = `self.path_len() == 0`; `none` is a
panic propagated from `path_len`. -/
def is_unnamed (a : UnixSocketAddress) : Option Bool :=
  a.path_len.map (fun pl => pl == 0)

/-- `UnixSocketAddress::as_abstract()`. The outer `Option` is the panic
channel (as in `as_path`, now for the slice `sun_path[1..path_len]`); the
inner `Option` is the source's return value. -/
def as_abstract (a : UnixSocketAddress) : Option (Option (List Nat)) :=
  match a.path_len with
  | none => none
  | some pl =>
    if 0 < pl ∧ a.inner.sun_path.headD 0 = 0 then
      if pl ≤ a.inner.sun_path.length then
        some (some ((a.inner.sun_path.take pl).drop 1))
      else none
    else some none

/-- `<UnixSocketAddress as AsSocketAddress>::finalize(address, len)`: reject
a wrong family tag, then a length above `max_len`, else record `len`. -/
def finalize (address : UnixSocketAddress) (len : Nat) :
    RustOutcome UnixSocketAddress :=
  if address.inner.sun_family ≠ static_family then .err .invalidData
  else if max_len < len then .err .invalidData
  else .ok { address with len := len }

end UnixSocketAddress

/-- The observable classification of a `std::os::unix::net::SocketAddr`
(external standard-library type): `as_pathname()` returns `Some` exactly for
`pathname`, `is_unnamed()` is true exactly for `unnamed`, and every other
address is abstract. -/
inductive StdUnixSocketAddr where
  | pathname (p : List Nat)
  | unnamed
  | abstract (name : List Nat)
  deriving DecidableEq

/-- `impl From<&std::os::unix::net::SocketAddr> for UnixSocketAddress`:
`new(path).unwrap()` for a pathname (the `unwrap` panics on an error),
`new_unnamed()` for an unnamed address, and an explicit panic otherwise. -/
def UnixSocketAddress.from_std (other : StdUnixSocketAddr) :
    RustOutcome UnixSocketAddress :=
  match other with
  | .pathname p =>
    match UnixSocketAddress.new p with
    | .ok a => .ok a
    | .err _ => .panicked
    | .panicked => .panicked
  | .unnamed => .ok UnixSocketAddress.new_unnamed
  | .abstract _ => .panicked

/-! ## `src/address/inet4.rs` -/

/-- `libc::sockaddr_in` (Linux): family tag, port (a `u16` stored after the
`to_be` conversion), and the four octets of `sin_addr.s_addr` (the `u32` is
bit-identical to the octet array, so the `transmute` pair in the source is
the identity on octets). The zero `sin_zero` padding carries no data. -/
structure sockaddr_in where
  sin_family : Nat
  sin_port : Nat
  sin_addr : List Nat
  deriving DecidableEq

/-- `Inet4SocketAddress`: a fixed-size record; no logical-length field. -/
structure Inet4SocketAddress where
  inner : sockaddr_in
  deriving DecidableEq

/-- `u16::to_be` / `u16::from_be` on a little-endian host: the byte swap of
a 16-bit value. -/
def u16_byteswap (x : Nat) : Nat := x % 256 * 256 + x / 256 % 256

namespace Inet4SocketAddress

/-- `Inet4SocketAddress::static_family()` = `libc::AF_INET`. -/
def static_family : Nat := afInet

/-- `Inet4SocketAddress::max_len()` = `size_of::<libc::sockaddr_in>()` = 16. -/
def max_len : Nat := 16

/-- `Inet4SocketAddress::new(ip, port)`: store the four IP octets and the
port in network byte order. -/
def new (ip : List Nat) (port : Nat) : Inet4SocketAddress :=
  ⟨⟨static_family, u16_byteswap port, ip⟩⟩

/-- `Inet4SocketAddress::ip()`: the stored octets, read back through the
inverse `transmute`. -/
def ip (a : Inet4SocketAddress) : List Nat := a.inner.sin_addr

/-- `Inet4SocketAddress::port()` = `u16::from_be(self.inner.sin_port)`. -/
def port (a : Inet4SocketAddress) : Nat := u16_byteswap a.inner.sin_port

/-- `<Inet4SocketAddress as AsSocketAddress>::finalize(address, len)`:
reject a wrong family tag, then a length different from the exact record
size, else return the address unchanged. -/
def finalize (address : Inet4SocketAddress) (len : Nat) :
    RustOutcome Inet4SocketAddress :=
  if address.inner.sin_family ≠ static_family then .err .invalidData
  else if len ≠ max_len then .err .invalidData
  else .ok address

end Inet4SocketAddress

/-! ## `src/address/inet6.rs` -/

/-- `libc::sockaddr_in6` (Linux): family tag, port (a `u16` stored after the
`to_be` conversion), flow info, the 16 octets of `sin6_addr.s6_addr`, and
the scope id. -/
structure sockaddr_in6 where
  sin6_family : Nat
  sin6_port : Nat
  sin6_flowinfo : Nat
  sin6_addr : List Nat
  sin6_scope_id : Nat
  deriving DecidableEq

/-- `Inet6SocketAddress`: a fixed-size record; no logical-length field. -/
structure Inet6SocketAddress where
  inner : sockaddr_in6
  deriving DecidableEq

namespace Inet6SocketAddress

/-- `Inet6SocketAddress::static_family()` = `libc::AF_INET6`. -/
def static_family : Nat := afInet6

/-- `Inet6SocketAddress::max_len()` = `size_of::<libc::sockaddr_in6>()` = 28. -/
def max_len : Nat := 28

/-- `Inet6SocketAddress::new(ip, port, flowinfo, scope_id)`. -/
def new (ip : List Nat) (port : Nat) (flowinfo : Nat) (scope_id : Nat) :
    Inet6SocketAddress :=
  ⟨⟨static_family, u16_byteswap port, flowinfo, ip, scope_id⟩⟩

/-- `Inet6SocketAddress::ip()`: the stored octets. -/
def ip (a : Inet6SocketAddress) : List Nat := a.inner.sin6_addr

/-- `Inet6SocketAddress::port()` = `u16::from_be(self.inner.sin6_port)`. -/
def port (a : Inet6SocketAddress) : Nat := u16_byteswap a.inner.sin6_port

/-- `<Inet6SocketAddress as AsSocketAddress>::finalize(address, len)`:
reject a wrong family tag, then a length different from the exact record
size, else return the address unchanged. -/
def finalize (address : Inet6SocketAddress) (len : Nat) :
    RustOutcome Inet6SocketAddress :=
  if address.inner.sin6_family ≠ static_family then .err .invalidData
  else if len ≠ max_len then .err .invalidData
  else .ok address

end Inet6SocketAddress

/-! ## `src/address/mod.rs` (generic `SocketAddress`) -/

/-- `libc::sockaddr_storage` (Linux, 128 bytes): family tag plus opaque
payload bytes. -/
structure sockaddr_storage where
  ss_family : Nat
  ss_data : List Nat
  deriving DecidableEq

/-- Generic `SocketAddress`: a `sockaddr_storage` plus the logical length. -/
structure SocketAddress where
  inner : sockaddr_storage
  len : Nat
  deriving DecidableEq

namespace SocketAddress

/-- `SocketAddress::max_len()` = `size_of::<libc::sockaddr_storage>()` = 128. -/
def max_len : Nat := 128

/-- `<SocketAddress as AsSocketAddress>::finalize(address, len)`: only the
length is checked against `max_len`; the family tag is never read. -/
def finalize (address : SocketAddress) (len : Nat) :
    RustOutcome SocketAddress :=
  if max_len < len then .err .invalidData
  else .ok { address with len := len }

end SocketAddress

/-! ## `src/socket.rs`: `recv_msg` / `recv_msg_from` ancillary handling -/

/-- Modelled from the spec: the `SocketAncillary` control-message buffer of
the crate (its defining module is not among the provided sources; `socket.rs`
uses its fields `buffer`, `length`, `truncated` and its `capacity()`). Per
spec §4.4 it owns a byte region (`buffer`, with `capacity()` the region
size) and two fields set only by a receive call: `length` (bytes the kernel
wrote) and `truncated` (kernel reported control-data truncation). -/
structure SocketAncillary where
  buffer : List Nat
  length : Nat
  truncated : Bool
  deriving DecidableEq

/-- `SocketAncillary::capacity()`: the size of the owned byte region. -/
def SocketAncillary.capacity (c : SocketAncillary) : Nat := c.buffer.length

/-- What the `libc::recvmsg` call (the external kernel) produced, as observed
through the message header afterwards: the return value (`fail` for `-1`),
and the header's `msg_controllen`, `msg_flags` and `msg_namelen` outputs. -/
structure RecvMsgKernelResult where
  ret : Option Nat
  msg_controllen : Nat
  msg_flags : Nat
  msg_namelen : Nat
  deriving DecidableEq

/-- `Socket::recv_msg(data, cdata, flags)` as a function of the kernel's
behaviour: on a failed syscall the `?` operator returns the error with
`cdata` untouched; on success `cdata.length` becomes `msg_controllen`,
`cdata.truncated` becomes `msg_flags & MSG_CTRUNC != 0`, and the call
returns `Ok((transferred, msg_flags))`. -/
def recv_msg (cdata : SocketAncillary) (k : RecvMsgKernelResult) :
    SocketAncillary × RustOutcome (Nat × Nat) :=
  match k.ret with
  | none => (cdata, .err .osError)
  | some n =>
    ({ cdata with
        length := k.msg_controllen,
        truncated := decide (Nat.land k.msg_flags msgCtrunc ≠ 0) },
     .ok (n, k.msg_flags))

/-- `Socket::recv_msg_from(data, cdata, flags)` as a function of the kernel's
behaviour; `addrResult` is the outcome of `Address::finalize` on the
kernel-written address with `msg_namelen` (run before `cdata` is updated, so
a finalize error leaves `cdata` untouched). -/
def recv_msg_from {α : Type} (cdata : SocketAncillary)
    (k : RecvMsgKernelResult) (addrResult : RustOutcome α) :
    SocketAncillary × RustOutcome (α × Nat × Nat) :=
  match k.ret with
  | none => (cdata, .err .osError)
  | some n =>
    match addrResult with
    | .err e => (cdata, .err e)
    | .panicked => (cdata, .panicked)
    | .ok address =>
      ({ cdata with
          length := k.msg_controllen,
          truncated := decide (Nat.land k.msg_flags msgCtrunc ≠ 0) },
       .ok (address, n, k.msg_flags))

/-! ## Derived notions used by the statements -/

/-- The finalized Unix-domain address values: everything produced by `new`,
`new_unnamed`, or `finalize` (whose input buffer carries the physical
108-byte `sun_path` array of `libc::sockaddr_un`). -/
def UnixSocketAddress.produced (a : UnixSocketAddress) : Prop :=
  (∃ p, UnixSocketAddress.new p = .ok a) ∨
  a = UnixSocketAddress.new_unnamed ∨
  (∃ b l, b.inner.sun_path.length = 108 ∧
    UnixSocketAddress.finalize b l = .ok a)

/-- How many of the three classifying observations hold on a Unix-domain
address: `is_unnamed()` returning `true`, `as_path()` returning `Some`,
`as_abstract()` returning `Some`. A panicking call contributes nothing. -/
def UnixSocketAddress.classifyCount (a : UnixSocketAddress) : Nat :=
  (match a.is_unnamed with | some true => 1 | _ => 0)
  + (match a.as_path with | some (some _) => 1 | _ => 0)
  + (match a.as_abstract with | some (some _) => 1 | _ => 0)

/-- The value `UnixSocketAddress::new("")` returns: the zeroed address with
logical length `0`. -/
def emptyPathAddr : UnixSocketAddress :=
  ⟨⟨UnixSocketAddress.static_family, zeroSunPath⟩, 0⟩

end PosixSocket

namespace PosixSocket

/-! ## Theorems for the claims -/

/-- **C8.** `UnixSocketAddress::new` on the empty path returns `Ok` with
logical length `0`, which is smaller than the header offset `path_offset = 2`;
on that value the `len - path_offset` subtraction inside `path_len`
underflows (modelled as `none`), and `is_unnamed`, `as_path` and
`as_abstract` — which all compute the path length this way — hit that
underflow branch, so the subtraction is not total under the constructor's
postcondition. -/
theorem unix_new_empty_reaches_underflow :
    UnixSocketAddress.new [] = .ok emptyPathAddr ∧
    emptyPathAddr.len = 0 ∧
    emptyPathAddr.len < emptyPathAddr.path_offset ∧
    emptyPathAddr.path_len = none ∧
    emptyPathAddr.is_unnamed = none ∧
    emptyPathAddr.as_path = none ∧
    emptyPathAddr.as_abstract = none := by
  refine ⟨rfl, rfl, by decide, rfl, rfl, rfl, rfl⟩

/-- **C10.** Converting a `std::os::unix::net::SocketAddr` that is neither a
pathname nor unnamed — that is, any abstract address — into a
`UnixSocketAddress` via the `From` implementation panics (the `panicked`
outcome, a constructor distinct from every recoverable `err` outcome)
instead of returning an error value. -/
theorem from_std_abstract_panics (name : List Nat) :
    UnixSocketAddress.from_std (.abstract name) = .panicked := rfl

/-- **C9.** The generic `SocketAddress::finalize` performs no family-tag
validation: for every buffer (any `ss_family` value whatsoever) and every
reported length, it returns `Ok` whenever the length is at most `max_len`,
and returns an `InvalidData` error exactly when the length exceeds
`max_len`. -/
theorem generic_finalize_no_family_check (a : SocketAddress) (l : Nat) :
    (l ≤ SocketAddress.max_len →
      SocketAddress.finalize a l = .ok { a with len := l }) ∧
    (SocketAddress.max_len < l →
      SocketAddress.finalize a l = .err .invalidData) := by
  constructor
  · intro h
    simp [SocketAddress.finalize, Nat.not_lt.mpr h]
  · intro h
    simp [SocketAddress.finalize, h]

/-- Witness for C9: a buffer whose family tag (99) is none of the supported
families is accepted at length 128 and rejected at length 129. -/
theorem generic_finalize_no_family_check_witness :
    SocketAddress.finalize ⟨⟨99, []⟩, 0⟩ 128 = .ok ⟨⟨99, []⟩, 128⟩ ∧
    SocketAddress.finalize ⟨⟨99, []⟩, 0⟩ 129 = .err .invalidData :=
  ⟨(generic_finalize_no_family_check ⟨⟨99, []⟩, 0⟩ 128).1 (by decide),
   (generic_finalize_no_family_check ⟨⟨99, []⟩, 0⟩ 129).2 (by decide)⟩

/-- **C3.** For all three supported families, `finalize` on a buffer whose
family tag does not match the type's expected family returns an
`InvalidData` validation error, never a finalized value. -/
theorem finalize_rejects_wrong_family
    (a4 : Inet4SocketAddress) (l4 : Nat)
    (h4 : a4.inner.sin_family ≠ Inet4SocketAddress.static_family)
    (a6 : Inet6SocketAddress) (l6 : Nat)
    (h6 : a6.inner.sin6_family ≠ Inet6SocketAddress.static_family)
    (au : UnixSocketAddress) (lu : Nat)
    (hu : au.inner.sun_family ≠ UnixSocketAddress.static_family) :
    Inet4SocketAddress.finalize a4 l4 = .err .invalidData ∧
    Inet6SocketAddress.finalize a6 l6 = .err .invalidData ∧
    UnixSocketAddress.finalize au lu = .err .invalidData := by
  refine ⟨?_, ?_, ?_⟩
  · simp [Inet4SocketAddress.finalize, h4]
  · simp [Inet6SocketAddress.finalize, h6]
  · simp [UnixSocketAddress.finalize, hu]

/-- Witness for C3: concrete kernel-written buffers tagged with the wrong
family (Unix tag in an IPv4 buffer, IPv4 tag in an IPv6 buffer, IPv6 tag in
a Unix buffer) are all rejected. -/
theorem finalize_rejects_wrong_family_witness :
    Inet4SocketAddress.finalize ⟨⟨afLocal, 0, [0, 0, 0, 0]⟩⟩ 16
      = .err .invalidData ∧
    Inet6SocketAddress.finalize ⟨⟨afInet, 0, 0, List.replicate 16 0, 0⟩⟩ 28
      = .err .invalidData ∧
    UnixSocketAddress.finalize ⟨⟨afInet6, zeroSunPath⟩, 0⟩ 2
      = .err .invalidData :=
  finalize_rejects_wrong_family
    ⟨⟨afLocal, 0, [0, 0, 0, 0]⟩⟩ 16 (by decide)
    ⟨⟨afInet, 0, 0, List.replicate 16 0, 0⟩⟩ 28 (by decide)
    ⟨⟨afInet6, zeroSunPath⟩, 0⟩ 2 (by decide)

/-- **C5 (counterexample).** The claim says a fixed-size address finalized
with a wrong reported length is treated as a fatal panic/assert rather than
a recoverable error result. In the code it is the opposite: finalizing a
well-tagged IPv4 buffer with length 15 (≠ 16) yields the recoverable
`InvalidData` error value — an `err`, not a `panicked` outcome. -/
theorem inet_finalize_wrong_len_counterexample :
    Inet4SocketAddress.finalize ⟨⟨afInet, 0, [0, 0, 0, 0]⟩⟩ 15
      = .err .invalidData ∧
    (RustOutcome.err ErrorKind.invalidData
      : RustOutcome Inet4SocketAddress) ≠ .panicked := by
  exact ⟨rfl, by decide⟩

/-- **C5 (amended).** If a fixed-size address type (IPv4 or IPv6) is
finalized with a matching family tag but a reported length not equal to its
exact required size, the operation returns a recoverable `InvalidData`
error result — it does not panic or abort. -/
theorem inet_finalize_wrong_len_recoverable
    (a4 : Inet4SocketAddress) (l4 : Nat)
    (hf4 : a4.inner.sin_family = Inet4SocketAddress.static_family)
    (hl4 : l4 ≠ Inet4SocketAddress.max_len)
    (a6 : Inet6SocketAddress) (l6 : Nat)
    (hf6 : a6.inner.sin6_family = Inet6SocketAddress.static_family)
    (hl6 : l6 ≠ Inet6SocketAddress.max_len) :
    Inet4SocketAddress.finalize a4 l4 = .err .invalidData ∧
    Inet6SocketAddress.finalize a6 l6 = .err .invalidData := by
  constructor
  · simp [Inet4SocketAddress.finalize, hf4, hl4]
  · simp [Inet6SocketAddress.finalize, hf6, hl6]

/-- Witness for C5: correctly tagged IPv4 and IPv6 buffers finalized with
lengths 15 and 27 (one short of the exact sizes 16 and 28) both return the
recoverable `InvalidData` error. -/
theorem inet_finalize_wrong_len_recoverable_witness :
    Inet4SocketAddress.finalize ⟨⟨afInet, 0, [0, 0, 0, 0]⟩⟩ 15
      = .err .invalidData ∧
    Inet6SocketAddress.finalize ⟨⟨afInet6, 0, 0, List.replicate 16 0, 0⟩⟩ 27
      = .err .invalidData :=
  inet_finalize_wrong_len_recoverable
    ⟨⟨afInet, 0, [0, 0, 0, 0]⟩⟩ 15 (by decide) (by decide)
    ⟨⟨afInet6, 0, 0, List.replicate 16 0, 0⟩⟩ 27 (by decide) (by decide)

/-- The byte swap of a 16-bit value is an involution. -/
theorem u16_byteswap_involutive (x : Nat) (h : x < 65536) :
    u16_byteswap (u16_byteswap x) = x := by
  have h2 : x / 256 < 256 := by omega
  have h3 : x / 256 % 256 = x / 256 := Nat.mod_eq_of_lt h2
  have hm : (x % 256 * 256 + x / 256) % 256 = x / 256 := by
    rw [Nat.mul_comm (x % 256) 256, Nat.mul_add_mod, h3]
  have hd : (x % 256 * 256 + x / 256) / 256 = x % 256 := by
    rw [Nat.add_comm, Nat.add_mul_div_right _ _ (by norm_num : (0:ℕ) < 256),
      Nat.div_eq_of_lt h2, Nat.zero_add]
  unfold u16_byteswap
  rw [h3, hm, hd]
  omega

/-- **C7.** For every IPv4 address (as octets) and 16-bit port,
`Inet4SocketAddress::new(ip, port)` followed by `.ip()` and `.port()`
returns the inputs; likewise `Inet6SocketAddress::new` for every IPv6
address, port, flow info and scope id. -/
theorem inet_new_roundtrip
    (ip4 : List Nat) (p4 : Nat) (hp4 : p4 < 65536)
    (ip6 : List Nat) (p6 : Nat) (hp6 : p6 < 65536) (fl sc : Nat) :
    (Inet4SocketAddress.new ip4 p4).ip = ip4 ∧
    (Inet4SocketAddress.new ip4 p4).port = p4 ∧
    (Inet6SocketAddress.new ip6 p6 fl sc).ip = ip6 ∧
    (Inet6SocketAddress.new ip6 p6 fl sc).port = p6 := by
  refine ⟨rfl, ?_, rfl, ?_⟩
  · exact u16_byteswap_involutive p4 hp4
  · exact u16_byteswap_involutive p6 hp6

/-- Witness for C7 at the corner cases named by the claim: `0.0.0.0` with
port `0`, and the all-ones IPv4/IPv6 addresses with port `65535`. -/
theorem inet_new_roundtrip_witness :
    ((Inet4SocketAddress.new [0, 0, 0, 0] 0).ip = [0, 0, 0, 0] ∧
      (Inet4SocketAddress.new [0, 0, 0, 0] 0).port = 0 ∧
      (Inet6SocketAddress.new (List.replicate 16 0) 0 0 0).ip
        = List.replicate 16 0 ∧
      (Inet6SocketAddress.new (List.replicate 16 0) 0 0 0).port = 0) ∧
    ((Inet4SocketAddress.new [255, 255, 255, 255] 65535).ip
        = [255, 255, 255, 255] ∧
      (Inet4SocketAddress.new [255, 255, 255, 255] 65535).port = 65535 ∧
      (Inet6SocketAddress.new (List.replicate 16 255) 65535 0 0).ip
        = List.replicate 16 255 ∧
      (Inet6SocketAddress.new (List.replicate 16 255) 65535 0 0).port
        = 65535) :=
  ⟨inet_new_roundtrip [0, 0, 0, 0] 0 (by decide)
      (List.replicate 16 0) 0 (by decide) 0 0,
   inet_new_roundtrip [255, 255, 255, 255] 65535 (by decide)
      (List.replicate 16 255) 65535 (by decide) 0 0⟩

/-- **C4.** `UnixSocketAddress::new` fails with an `InvalidInput` error
exactly when the path does not fit in the available payload room
(`max_len - path_offset - 1 = 110 - 2 - 1 = 107` bytes): every path of
length at least 107 is rejected with `InvalidInput`, every shorter path
succeeds; in particular a 107-byte path (exactly at the capacity limit)
fails and a 106-byte path succeeds. -/
theorem unix_new_capacity_boundary :
    (∀ p : List Nat, 107 ≤ p.length →
      UnixSocketAddress.new p = .err .invalidInput) ∧
    (∀ p : List Nat, p.length < 107 →
      (UnixSocketAddress.new p).isOk = true) ∧
    UnixSocketAddress.new (List.replicate 107 97) = .err .invalidInput ∧
    (UnixSocketAddress.new (List.replicate 106 97)).isOk = true := by
  have hfail : ∀ p : List Nat, 107 ≤ p.length →
      UnixSocketAddress.new p = .err .invalidInput := by
    intro p hp
    simp only [UnixSocketAddress.new, UnixSocketAddress.path_offset,
      UnixSocketAddress.max_len]
    rw [if_pos]
    omega
  have hok : ∀ p : List Nat, p.length < 107 →
      (UnixSocketAddress.new p).isOk = true := by
    intro p hp
    simp only [UnixSocketAddress.new, UnixSocketAddress.path_offset,
      UnixSocketAddress.max_len]
    rw [if_neg (by omega)]
    by_cases h0 : p.length = 0
    · rw [if_pos h0]; rfl
    · rw [if_neg h0]; rfl
  refine ⟨hfail, hok, hfail _ ?_, hok _ ?_⟩
  · simp
  · simp

/-- Witness for C4: the boundary instances, obtained from the universally
quantified parts at paths of lengths 107 and 106. -/
theorem unix_new_capacity_boundary_witness :
    UnixSocketAddress.new (List.replicate 107 98) = .err .invalidInput ∧
    (UnixSocketAddress.new (List.replicate 106 98)).isOk = true :=
  ⟨unix_new_capacity_boundary.1 (List.replicate 107 98) (by simp),
   unix_new_capacity_boundary.2.1 (List.replicate 106 98) (by simp)⟩

/-- **C2 (counterexample).** The claim quantifies over every path shorter
than the 107-byte limit, but for the empty path (length 0 < 107) the
constructor succeeds while `as_path` on the result hits the `path_len`
underflow panic (`none` in the panic channel) instead of returning the
path. -/
theorem unix_new_as_path_roundtrip_counterexample :
    ([] : List Nat).length < 107 ∧
    (UnixSocketAddress.new ([] : List Nat)).map UnixSocketAddress.as_path
      = .ok none := by
  exact ⟨by decide, rfl⟩

/-- **C2 (amended).** For every nonempty path P whose first byte is nonzero
and whose length is below the capacity limit minus the header/terminator
overhead (107 bytes), `UnixSocketAddress::new(P)` succeeds and `as_path()`
on the result returns `Some(P)`. (The counterexample forces excluding the
empty path, whose `as_path` panics, and with it the NUL-initial paths that
the same `sun_path[0]` test sends to the abstract branch.) -/
theorem unix_new_as_path_roundtrip (p : List Nat) (hne : p ≠ [])
    (hd : p.headD 0 ≠ 0) (hlen : p.length < 107) :
    (UnixSocketAddress.new p).map UnixSocketAddress.as_path
      = .ok (some (some p)) := by
  have h0 : p.length ≠ 0 := by
    cases p with
    | nil => exact absurd rfl hne
    | cons x xs => simp
  simp only [UnixSocketAddress.new, UnixSocketAddress.path_offset,
    UnixSocketAddress.max_len]
  rw [if_neg (by omega), if_neg h0]
  simp only [RustOutcome.map]
  have hlen2 : (copyBytesInto zeroSunPath p).length = 108 := by
    simp only [copyBytesInto, List.length_append, List.length_drop,
      zeroSunPath, List.length_replicate]
    omega
  simp only [UnixSocketAddress.as_path, UnixSocketAddress.path_len,
    UnixSocketAddress.path_offset]
  rw [if_neg (by omega)]
  have hplen : (2 : Nat) + p.length + 1 - 2 = p.length + 1 := by omega
  simp only [hplen]
  rw [if_neg (by omega)]
  have hhead : (copyBytesInto zeroSunPath p).headD 0 = p.headD 0 := by
    cases p with
    | nil => exact absurd rfl hne
    | cons x xs => simp [copyBytesInto]
  rw [hhead, if_neg hd, if_pos (by omega)]
  have htake : p.length + 1 - 1 = p.length := by omega
  rw [htake]
  have : (copyBytesInto zeroSunPath p).take p.length = p := by
    simp only [copyBytesInto]
    exact List.take_left p (zeroSunPath.drop p.length)
  rw [this]

/-- Witness for C2: the one-byte path `[97]` round-trips through `new` and
`as_path`. -/
theorem unix_new_as_path_roundtrip_witness :
    (UnixSocketAddress.new [97]).map UnixSocketAddress.as_path
      = .ok (some (some [97])) :=
  unix_new_as_path_roundtrip [97] (by decide) (by decide) (by decide)

/-- `UnixSocketAddress::new` on a too-long path: the `InvalidInput` branch. -/
theorem unix_new_eq_err_of_ge (p : List Nat) (hp : 107 ≤ p.length) :
    UnixSocketAddress.new p = .err .invalidInput := by
  simp only [UnixSocketAddress.new, UnixSocketAddress.path_offset,
    UnixSocketAddress.max_len]
  rw [if_pos (by omega)]

/-- `UnixSocketAddress::new` on the empty path: the zeroed address with
logical length `0`. -/
theorem unix_new_eq_ok_empty (p : List Nat) (hp : p.length = 0) :
    UnixSocketAddress.new p = .ok emptyPathAddr := by
  simp only [UnixSocketAddress.new, UnixSocketAddress.path_offset,
    UnixSocketAddress.max_len]
  rw [if_neg (by omega), if_pos hp]
  rfl

/-- `UnixSocketAddress::new` on a fitting nonempty path: the path bytes are
copied into the zeroed `sun_path` and the logical length is
`path_offset + path.len() + 1`. -/
theorem unix_new_eq_ok_nonempty (p : List Nat)
    (h1 : p.length < 107) (h2 : p.length ≠ 0) :
    UnixSocketAddress.new p
      = .ok ⟨⟨UnixSocketAddress.static_family, copyBytesInto zeroSunPath p⟩,
        2 + p.length + 1⟩ := by
  simp only [UnixSocketAddress.new, UnixSocketAddress.path_offset,
    UnixSocketAddress.max_len]
  rw [if_neg (by omega), if_neg h2]

/-- On any Unix address whose logical length lies between the path offset
and the buffer capacity and whose `sun_path` is the physical 108-byte array,
exactly one of the three classifying observations holds. -/
theorem unix_classifyCount_eq_one (a : UnixSocketAddress)
    (hlen : 2 ≤ a.len) (hcap : a.len ≤ 110)
    (hsp : a.inner.sun_path.length = 108) :
    a.classifyCount = 1 := by
  have hpl : a.path_len = some (a.len - 2) := by
    simp only [UnixSocketAddress.path_len, UnixSocketAddress.path_offset]
    rw [if_neg (by omega)]
  simp only [UnixSocketAddress.classifyCount, UnixSocketAddress.is_unnamed,
    UnixSocketAddress.as_path, UnixSocketAddress.as_abstract, hpl,
    Option.map]
  by_cases h0 : a.len - 2 = 0
  · simp [h0]
  · have hpos : 0 < a.len - 2 := Nat.pos_of_ne_zero h0
    have hb : a.len - 2 ≤ a.inner.sun_path.length := by omega
    have hb1 : a.len - 2 - 1 ≤ a.inner.sun_path.length := by omega
    have e1 : ((a.len - 2) == 0) = false := by simp [h0]
    by_cases hh : a.inner.sun_path.headD 0 = 0
    · rw [if_neg h0, if_pos hh, if_pos ⟨hpos, hh⟩, if_pos hb]
      simp [e1]
    · rw [if_neg h0, if_neg hh, if_pos hb1,
        if_neg (fun hc : 0 < a.len - 2 ∧ _ => hh hc.2)]
      simp [e1]

/-- **C1 (counterexample).** `new("")` produces a finalized value (it is
returned by the public constructor `new`) on which none of the three
predicates holds: `is_unnamed`, `as_path` and `as_abstract` all hit the
`path_len` underflow panic, so zero of them hold rather than exactly one. -/
theorem unix_classify_counterexample :
    UnixSocketAddress.new [] = .ok emptyPathAddr ∧
    emptyPathAddr.produced ∧
    emptyPathAddr.classifyCount = 0 := by
  exact ⟨rfl, Or.inl ⟨[], rfl⟩, rfl⟩

/-- **C1 (amended).** For every finalized Unix-domain address (produced by
`new`, `new_unnamed` or `finalize`) whose logical length is at least the
path offset, exactly one of the three predicates holds: `is_unnamed()` is
true, `as_path()` returns `Some`, or `as_abstract()` returns `Some` — never
zero, never two. (The counterexample forces excluding the length-0 value
that `new` returns on the empty path, and with it the `finalize` results of
length below the path offset, on which all three predicates panic.) -/
theorem unix_classify_exactly_one (a : UnixSocketAddress)
    (hprod : a.produced) (hlen : a.path_offset ≤ a.len) :
    a.classifyCount = 1 := by
  rcases hprod with ⟨p, hp⟩ | rfl | ⟨b, l, hb, hf⟩
  · by_cases hbig : (107 : Nat) ≤ p.length
    · rw [unix_new_eq_err_of_ge p hbig] at hp
      cases hp
    · by_cases h0 : p.length = 0
      · rw [unix_new_eq_ok_empty p h0] at hp
        injection hp with h
        subst h
        exact absurd hlen (by decide)
      · rw [unix_new_eq_ok_nonempty p (by omega) h0] at hp
        injection hp with h
        subst h
        refine unix_classifyCount_eq_one _
          (by show (2 : Nat) ≤ 2 + p.length + 1; omega)
          (by show 2 + p.length + 1 ≤ 110; omega) ?_
        simp only [copyBytesInto, List.length_append, List.length_drop,
          zeroSunPath, List.length_replicate]
        omega
  · exact unix_classifyCount_eq_one _ (by decide) (by decide) (by decide)
  · simp only [UnixSocketAddress.finalize] at hf
    by_cases hfam : b.inner.sun_family ≠ UnixSocketAddress.static_family
    · rw [if_pos hfam] at hf
      cases hf
    · rw [if_neg hfam] at hf
      by_cases hl : UnixSocketAddress.max_len < l
      · rw [if_pos hl] at hf
        cases hf
      · rw [if_neg hl] at hf
        injection hf with h
        subst h
        refine unix_classifyCount_eq_one _ hlen ?_ hb
        simpa [UnixSocketAddress.max_len] using Nat.not_lt.mp hl

/-- Witness for C1: the unnamed address is a finalized value of length
`path_offset` and exactly one predicate (`is_unnamed`) holds on it. -/
theorem unix_classify_exactly_one_witness :
    UnixSocketAddress.classifyCount UnixSocketAddress.new_unnamed = 1 :=
  unix_classify_exactly_one UnixSocketAddress.new_unnamed
    (Or.inr (Or.inl rfl)) (by decide)

/-- **C6.** After every successful `recv_msg` or `recv_msg_from` call the
ancillary buffer's `truncated` flag is set exactly when the kernel reported
`MSG_CTRUNC` in the returned message flags, its `length` is set to the
number of control bytes the kernel reported writing (`msg_controllen`), and
the call still returns `Ok`: a successful kernel call (with, for
`recv_msg_from`, a successful address finalize) yields `Ok` whatever the
truncation flag says — truncation is surfaced as a flag, never as an
error. -/
theorem recv_msg_ancillary_truncation
    (cdata cd2 : SocketAncillary) (k : RecvMsgKernelResult) :
    (∀ r : Nat × Nat, recv_msg cdata k = (cd2, .ok r) →
      cd2.truncated = decide (Nat.land k.msg_flags msgCtrunc ≠ 0) ∧
      cd2.length = k.msg_controllen) ∧
    (∀ n : Nat, k.ret = some n →
      (recv_msg cdata k).2 = .ok (n, k.msg_flags)) ∧
    (∀ (α : Type) (addrResult : RustOutcome α) (r : α × Nat × Nat),
      recv_msg_from cdata k addrResult = (cd2, .ok r) →
      cd2.truncated = decide (Nat.land k.msg_flags msgCtrunc ≠ 0) ∧
      cd2.length = k.msg_controllen) ∧
    (∀ (α : Type) (address : α) (n : Nat), k.ret = some n →
      (recv_msg_from cdata k (.ok address)).2
        = .ok (address, n, k.msg_flags)) := by
  refine ⟨?_, ?_, ?_, ?_⟩
  · intro r h
    unfold recv_msg at h
    cases hk : k.ret with
    | none =>
      rw [hk] at h
      simp at h
    | some n =>
      rw [hk] at h
      injection h with h1 h2
      subst h1
      exact ⟨rfl, rfl⟩
  · intro n hn
    unfold recv_msg
    rw [hn]
  · intro α addrResult r h
    unfold recv_msg_from at h
    cases hk : k.ret with
    | none =>
      rw [hk] at h
      simp at h
    | some n =>
      rw [hk] at h
      cases addrResult with
      | ok address =>
        injection h with h1 h2
        subst h1
        exact ⟨rfl, rfl⟩
      | err e => simp at h
      | panicked => simp at h
  · intro α address n hn
    unfold recv_msg_from
    rw [hn]

/-- Witness for C6: a kernel result that transferred 3 bytes, wrote 2
control bytes, and set `MSG_CTRUNC` (flags = 8) leaves the ancillary buffer
with `truncated = true` and `length = 2` while the call returned `Ok`. -/
theorem recv_msg_ancillary_truncation_witness :
    (⟨[0, 0, 0, 0], 2, true⟩ : SocketAncillary).truncated
        = decide (Nat.land 8 msgCtrunc ≠ 0) ∧
    (⟨[0, 0, 0, 0], 2, true⟩ : SocketAncillary).length = 2 :=
  (recv_msg_ancillary_truncation ⟨[0, 0, 0, 0], 0, false⟩
    ⟨[0, 0, 0, 0], 2, true⟩ ⟨some 3, 2, 8, 0⟩).1 (3, 8) (by decide)

end PosixSocket
